import Mathlib

/-!
# Verification of `timesketch/lib/utils.py`

A shallow embedding of the five utility functions of the module
(`random_color`, `get_csv_dialect`, `read_and_validate_csv`,
`read_and_validate_jsonl`, `get_validated_indices`), together with proofs
about them.

Modelling conventions:
* Python strings are `String`, Python ints are `Int`, Python floats are `ℚ`
  (the arithmetic performed here is range reasoning that is insensitive to
  rounding), Python `None`-able strings are `Option String`.
* Python exceptions are an explicit `PyError` value; a fallible computation
  returns `Except PyError α`.
* A generator is modelled by the list of rows it yields before it either
  finishes normally or raises: `GenResult := List EventRow × Option PyError`.
* `dateutil.parser.parse`, `json.loads` and `datetime.datetime.fromtimestamp`
  live outside this module; they are passed as explicit function parameters
  (`parse`, `jsonParse`, `fromTs`).  A parsed `datetime` object is abstracted
  by the two observations the module makes of it: its whole-second local
  epoch value `int(time.mktime(d.timetuple()))` and its `isoformat()` string.
-/

/-- A Python exception, reduced to its class and message. -/
inductive PyError where
  | typeError (msg : String)
  | valueError (msg : String)
  | keyError (key : String)
  | runtimeError (msg : String)
  deriving DecidableEq, Repr

/-- Abstraction of a parsed `datetime.datetime` object: the module only ever
observes `int(time.mktime(d.timetuple()))` (whole-second epoch in the local
time zone) and `d.isoformat()`. -/
structure PyDatetime where
  epochSec : Int
  iso : String
  deriving DecidableEq, Repr

/-- A value stored in an event-row mapping: the module produces strings,
integers, lists of strings (the `tag` field) and — in the JSONL path — a raw
parsed datetime object. -/
inductive Value where
  | str (s : String)
  | int (i : Int)
  | strList (l : List String)
  | pydt (d : PyDatetime)
  deriving DecidableEq, Repr

/-- A CSV data row as produced by `csv.DictReader`: a finite mapping from
column name to string value. -/
abbrev Row := List (String × String)

/-- A normalized event row: a finite mapping from field name to `Value`. -/
abbrev EventRow := List (String × Value)

/-- The observable behaviour of one run of a generator: the rows it yielded,
followed by `none` (normal termination) or `some e` (it raised `e`). -/
abbrev GenResult := List EventRow × Option PyError

/-- The function `get_csv_dialect` from `utils.py`.  Python's sets of the (duplicate-free)
literal field lists are modelled as lists; `len(required) ==
len(required ∩ header)` is the length comparison of the filtered list. -/
def get_csv_dialect (csv_header : List String) : Option String :=
  let redline_fields := ["Alert", "Tag", "Timestamp", "Field", "Summary"]
  let redline_intersection := redline_fields.filter (fun f => f ∈ csv_header)
  if redline_fields.length = redline_intersection.length then
    some "redline"
  else
    let timesketch_fields := ["message", "datetime", "timestamp_desc"]
    let timesketch_intersection := timesketch_fields.filter (fun f => f ∈ csv_header)
    if timesketch_fields.length = timesketch_intersection.length then
      some "timesketch"
    else
      none

/-- The function `get_validated_indices` from `utils.py`.  The Python set difference
`set(indices) - set(sketch_indices)` is modelled as the (possibly repeating)
list of members of `indices` that are not in `sketch_indices`; only its
membership and emptiness are used, which agree with the set's. -/
def get_validated_indices (indices sketch_indices : List String) : List String :=
  let exclude := indices.filter (fun x => decide (x ∉ sketch_indices))
  if exclude.isEmpty then
    indices
  else
    indices.filter (fun x => decide (x ∉ exclude))

/-- The redline required-field set. -/
def redlineFields : List String := ["Alert", "Tag", "Timestamp", "Field", "Summary"]

/-- The timesketch required-field set. -/
def timesketchFields : List String := ["message", "datetime", "timestamp_desc"]

/-- Does the first character list start the second? -/
def startsWithL : List Char → List Char → Bool
  | [], _ => true
  | _ :: _, [] => false
  | n :: ns, h :: hs => n == h && startsWithL ns hs

/-- Does the first character list occur contiguously in the second? -/
def containsL (needle : List Char) : List Char → Bool
  | [] => needle.isEmpty
  | h :: hs => startsWithL needle (h :: hs) || containsL needle hs

/-- Python's substring test `needle in hay` for strings: true iff `needle`
occurs contiguously in `hay`. -/
def pyInStr (needle hay : String) : Bool :=
  containsL needle.toList hay.toList

/-- Python's `needle in hay` where `hay` is a `None`-able string, as in
`u'redline' in csv_dialect` in `read_and_validate_csv`: applying `in` to
`None` raises `TypeError`. -/
def pyInOptStr (needle : String) (hay : Option String) : Except PyError Bool :=
  match hay with
  | none => .error (.typeError "argument of type \x27NoneType\x27 is not iterable")
  | some s => .ok (pyInStr needle s)

/-- Python's `row[key]` on a dict: the value, or `KeyError`. -/
def keyGet (r : Row) (k : String) : Except PyError String :=
  match r.lookup k with
  | some v => .ok v
  | none => .error (.keyError k)

/-- Python's `d[key] = v` on a dict: overwrite an existing binding in place,
otherwise append the new binding at the end. -/
def setKey (r : EventRow) (k : String) (v : Value) : EventRow :=
  if (r.lookup k).isSome then
    r.map (fun p => if p.1 = k then (k, v) else p)
  else
    r ++ [(k, v)]

/-- A CSV data row viewed as an event row (all values are strings). -/
def toEventRow (r : Row) : EventRow :=
  r.map (fun p => (p.1, Value.str p.2))

/-- The outcome of the loop body of a generator for one input element:
`yield` a row, silently `skip` it (`continue`), or raise. -/
inductive StepResult where
  | yield (r : EventRow)
  | skip
  | fail (e : PyError)
  deriving DecidableEq, Repr

/-- Run a generator body over a list of inputs: collect yielded rows until
the first raise (which ends the run with that error). -/
def runGen (f : Row → StepResult) : List Row → GenResult
  | [] => ([], none)
  | r :: rest =>
    match f r with
    | .fail e => ([], some e)
    | .skip => runGen f rest
    | .yield y => (y :: (runGen f rest).1, (runGen f rest).2)

/-- The redline loop body of `read_and_validate_csv`: parse the `Timestamp`
field (`dateutil.parser.parse`, passed in as `parse`; a failure is not
caught here), then build the normalized row.  Dict accesses are in the
source's evaluation order. -/
def redlineRow (parse : String → Except PyError PyDatetime) (r : Row) :
    Except PyError EventRow := do
  let ts ← keyGet r "Timestamp"
  let d ← parse ts
  let sum ← keyGet r "Summary"
  let fld ← keyGet r "Field"
  let alr ← keyGet r "Alert"
  let tg ← keyGet r "Tag"
  pure [("message", .str sum),
        ("timestamp", .int (d.epochSec * 1000000)),
        ("datetime", .str d.iso),
        ("timestamp_desc", .str fld),
        ("alert", .str alr),
        ("tag", .strList [tg])]

/-- The redline loop body as a generator step (an uncaught error raises). -/
def redlineStep (parse : String → Except PyError PyDatetime) (r : Row) :
    StepResult :=
  match redlineRow parse r with
  | .ok y => .yield y
  | .error e => .fail e

/-- The timesketch loop body of `read_and_validate_csv`: when the header has
no `timestamp` column but has a `datetime` column, derive `timestamp` from
the parsed `datetime`; a `ValueError` from the parse makes the row be
skipped (`continue`), any other error propagates.  Otherwise the row passes
through unchanged. -/
def timesketchRow (parse : String → Except PyError PyDatetime)
    (csv_header : List String) (r : Row) : StepResult :=
  if "timestamp" ∉ csv_header ∧ "datetime" ∈ csv_header then
    match keyGet r "datetime" with
    | .error e => .fail e
    | .ok s =>
      match parse s with
      | .ok d => .yield (setKey (toEventRow r) "timestamp" (.int (d.epochSec * 1000000)))
      | .error (.valueError _) => .skip
      | .error e => .fail e
  else
    .yield (toEventRow r)

/-- The contents of a CSV file after `csv.DictReader` has consumed it: the
header row and the data rows (each a mapping from column name to value). -/
structure CsvFile where
  header : List String
  rows : List Row

/-- The generator `read_and_validate_csv` from `utils.py`, as a function of the parsed file
contents and of the external date parser.  The dialect dispatch is the
source's `if u'redline' in csv_dialect: ... elif u'timesketch' in
csv_dialect: ... else: raise RuntimeError(u'Unknown CSV format')`, including
the fact that `in` applied to the `None` dialect raises `TypeError`. -/
def read_and_validate_csv (parse : String → Except PyError PyDatetime)
    (file : CsvFile) : GenResult :=
  let csv_dialect := get_csv_dialect file.header
  match pyInOptStr "redline" csv_dialect with
  | .error e => ([], some e)
  | .ok true => runGen (redlineStep parse) file.rows
  | .ok false =>
    match pyInOptStr "timesketch" csv_dialect with
    | .error e => ([], some e)
    | .ok true => runGen (timesketchRow parse file.header) file.rows
    | .ok false => ([], some (.runtimeError "Unknown CSV format"))

/-- Python's `str()` of a JSON value, as used by
`int(str(linedict[u'timestamp'])[:10])`.  The list and datetime renderings
abstract Python's `str`; they are never reached from parsed JSON input. -/
def pyStr : Value → String
  | .str s => s
  | .int i => toString i
  | .strList l => toString l
  | .pydt d => d.iso

/-- Python's `int(s)` for a base-10 string: optional surrounding whitespace,
optional sign, at least one digit; anything else raises `ValueError`. -/
def pyIntOfString (s : String) : Except PyError Int :=
  let t := s.trim
  let core := if t.startsWith "-" || t.startsWith "+" then t.drop 1 else t
  if 0 < core.length ∧ core.all Char.isDigit then
    let n : Nat := core.foldl (fun acc c => acc * 10 + (c.toNat - 48)) 0
    .ok (if t.startsWith "-" then -(n : Int) else (n : Int))
  else
    .error (.valueError ("invalid literal for int() with base 10: " ++ s))

/-- The argument check of `dateutil.parser.parse`: a non-string argument
raises `TypeError`. -/
def parseArgStr : Value → Except PyError String
  | .str s => .ok s
  | _ => .error (.typeError "Parser must be a string or character stream, not a number")

/-- A rendering of the missing-fields list in the JSONL error message
(abstracts Python's `str` of a list of strings). -/
def missingRepr (missing : List String) : String :=
  "[" ++ String.intercalate ", " (missing.map (fun f => "\x27" ++ f ++ "\x27")) ++ "]"

/-- The per-object body of `read_and_validate_jsonl` after `json.loads`
(steps 2–5 of the spec): backfill `datetime` from `timestamp` or `timestamp`
from `datetime`, then check the mandatory fields.  `ld_keys` is the key
snapshot the source takes once, before either backfill.  `pd` abstracts
`dateutil.parser.parse`, `fts` abstracts the local-time
`datetime.datetime.fromtimestamp`. -/
def processObj (pd : String → Except PyError PyDatetime)
    (fts : Int → PyDatetime) (lineno : Nat) (o : EventRow) :
    Except PyError EventRow := do
  let ld_keys := o.map Prod.fst
  let o₁ ←
    if "datetime" ∉ ld_keys ∧ "timestamp" ∈ ld_keys then do
      let tv ←
        match o.lookup "timestamp" with
        | some v => Except.ok v
        | none => Except.error (.keyError "timestamp")
      let epoch ← pyIntOfString ((pyStr tv).take 10)
      pure (setKey o "datetime" (.str (fts epoch).iso))
    else
      pure o
  let o₂ ←
    if "timestamp" ∉ ld_keys ∧ "datetime" ∈ ld_keys then do
      let dv ←
        match o₁.lookup "datetime" with
        | some v => Except.ok v
        | none => Except.error (.keyError "datetime")
      let s ← parseArgStr dv
      let d ← pd s
      pure (setKey o₁ "timestamp" (.pydt d))
    else
      pure o₁
  let missing := timesketchFields.filter (fun f => (o₂.lookup f).isNone)
  if missing.isEmpty then
    pure o₂
  else
    .error (.runtimeError
      ("Missing field(s) at line " ++ toString lineno ++ ": " ++ missingRepr missing))

/-- The per-line body of `read_and_validate_jsonl`: `json.loads` (the
external `jp`), then `processObj`; the `except ValueError` clause re-raises
any `ValueError` from the `try` block — from `json.loads`, `int()` or
`parser.parse` alike — as the line-numbered `RuntimeError`, while other
errors (including the missing-fields `RuntimeError`) propagate unchanged. -/
def processLine (jp : String → Except PyError EventRow)
    (pd : String → Except PyError PyDatetime) (fts : Int → PyDatetime)
    (lineno : Nat) (line : String) : StepResult :=
  match (do
      let o ← jp line
      processObj pd fts lineno o : Except PyError EventRow) with
  | .error (.valueError m) =>
      .fail (.runtimeError ("Error parsing JSON at line " ++ toString lineno ++ ": " ++ m))
  | .error e => .fail e
  | .ok row => .yield row

/-- Run a line-numbered generator body over the lines of a file, starting at
line number `n`. -/
def runGenIdx (f : Nat → String → StepResult) (n : Nat) : List String → GenResult
  | [] => ([], none)
  | l :: rest =>
    match f n l with
    | .fail e => ([], some e)
    | .skip => runGenIdx f (n + 1) rest
    | .yield y => (y :: (runGenIdx f (n + 1) rest).1, (runGenIdx f (n + 1) rest).2)

/-- The generator `read_and_validate_jsonl` from `utils.py`, as a function of the file's
lines and of the external JSON and date parsers (the source's second
parameter is accepted and ignored, hence absent here).  Lines are processed
in order with a 1-based line counter. -/
def read_and_validate_jsonl (jp : String → Except PyError EventRow)
    (pd : String → Except PyError PyDatetime) (fts : Int → PyDatetime)
    (lines : List String) : GenResult :=
  runGenIdx (processLine jp pd fts) 1 lines

/-- A concrete stand-in for `dateutil.parser.parse` used by the witnesses:
it accepts a single fixed date string. -/
def parseFix : String → Except PyError PyDatetime :=
  fun s =>
    if s = "2020-01-01 00:00:00" then .ok ⟨1577836800, "2020-01-01T00:00:00"⟩
    else .error (.valueError ("Unknown string format: " ++ s))

/-- A concrete stand-in for the local-time `datetime.datetime.fromtimestamp`
used by the witnesses. -/
def ftsFix : Int → PyDatetime :=
  fun z => ⟨z, "1970-01-01T00:00:" ++ toString z⟩

/-- A concrete stand-in for `json.loads` used by the witnesses: line `"a"`
holds a complete event object, everything else is invalid JSON. -/
def jpFix : String → Except PyError EventRow :=
  fun l =>
    if l = "a" then
      .ok [("message", .str "m"), ("datetime", .str "dt"),
           ("timestamp_desc", .str "td"), ("timestamp", .int 5)]
    else
      .error (.valueError "No JSON object could be decoded")

/-- A concrete stand-in for `json.loads` used by the C7 witness: line `"j"`
holds an object with only the three mandatory fields. -/
def jpFixDt : String → Except PyError EventRow :=
  fun l =>
    if l = "j" then
      .ok [("message", .str "m"), ("datetime", .str "2020-01-01 00:00:00"),
           ("timestamp_desc", .str "td")]
    else
      .error (.valueError "No JSON object could be decoded")

/-- Python's `int()` applied to a rational number: truncation toward zero. -/
def pyInt (x : ℚ) : Int :=
  if 0 ≤ x then ⌊x⌋ else ⌈x⌉

/-- The function `colorsys.hsv_to_rgb` from the Python standard library, over rationals
(the range reasoning done here is insensitive to float rounding). -/
def hsv_to_rgb (h s v : ℚ) : ℚ × ℚ × ℚ :=
  if s = 0 then (v, v, v)
  else
    let i : Int := pyInt (h * 6)
    let f : ℚ := h * 6 - (i : ℚ)
    let p : ℚ := v * (1 - s)
    let q : ℚ := v * (1 - s * f)
    let t : ℚ := v * (1 - s * (1 - f))
    let im : Int := i % 6
    if im = 0 then (v, t, p)
    else if im = 1 then (q, v, p)
    else if im = 2 then (p, v, t)
    else if im = 3 then (p, q, t)
    else if im = 4 then (p, t, v)
    else (v, p, q)

/-- The uppercase hexadecimal digit for `n < 16`. -/
def hexDigit (n : Nat) : Char :=
  if n < 10 then Char.ofNat (48 + n) else Char.ofNat (55 + n)

/-- Big-endian uppercase hexadecimal digits of `n`, with explicit fuel (any
fuel above the digit count gives the same result; `n + 1` always
suffices). -/
def hexDigitsAux : Nat → Nat → List Char
  | 0, _ => []
  | fuel + 1, n =>
    if n < 16 then [hexDigit n]
    else hexDigitsAux fuel (n / 16) ++ [hexDigit (n % 16)]

/-- The uppercase hexadecimal rendering of a natural number. -/
def pyHexUpper (n : Nat) : String :=
  String.mk (hexDigitsAux (n + 1) n)

/-- Python's `'{0:02X}'.format(i)` for a non-negative integer: uppercase
hexadecimal, zero-padded to width 2 (negative arguments never arise in
`random_color`; they are rendered unpadded here). -/
def format02X (i : Int) : String :=
  let s := pyHexUpper i.toNat
  if s.length < 2 then "0" ++ s else s

/-- The function `random_color` from `utils.py`, as a function of the wrapped hue: the
source draws `random.random()`, adds `(1 + 5**0.5)/2` and reduces `% 1`,
which always lands in `[0, 1)`; `hue` here is that wrapped value.  The fixed
saturation is 0.5 and the fixed value 0.95, each channel is scaled by 256
and truncated with `int`, and the three channels are formatted as
`'{0:02X}{1:02X}{2:02X}'`. -/
def random_color (hue : ℚ) : String :=
  let rgb := hsv_to_rgb hue (1/2) (19/20)
  format02X (pyInt (rgb.1 * 256)) ++ format02X (pyInt (rgb.2.1 * 256)) ++
    format02X (pyInt (rgb.2.2 * 256))

/-- Characterisation of `get_csv_dialect` by set containment: the filtered
intersection has full length iff every required field occurs in the header. -/
theorem get_csv_dialect_char (h : List String) :
    get_csv_dialect h =
      if redlineFields ⊆ h then some "redline"
      else if timesketchFields ⊆ h then some "timesketch"
      else none := by
  have key : ∀ (fs : List String),
      fs.length = (fs.filter (fun f => f ∈ h)).length ↔ fs ⊆ h := by
    intro fs
    constructor
    · intro hlen f hf
      have heq : fs.filter (fun f => f ∈ h) = fs :=
        (List.filter_sublist fs).eq_of_length hlen.symm
      simpa using List.filter_eq_self.mp heq f hf
    · intro hsub
      rw [List.filter_eq_self.mpr (fun f hf => by simpa using hsub hf)]
  have hr := key redlineFields
  have ht := key timesketchFields
  simp only [redlineFields, timesketchFields] at hr ht
  simp only [get_csv_dialect]
  by_cases h1 : redlineFields ⊆ h
  · rw [if_pos (hr.mpr h1), if_pos h1]
  · rw [if_neg (fun hl => h1 (hr.mp hl)), if_neg h1]
    by_cases h2 : timesketchFields ⊆ h
    · rw [if_pos (ht.mpr h2), if_pos h2]
    · rw [if_neg (fun hl => h2 (ht.mp hl)), if_neg h2]

/-- C2: `get_csv_dialect` returns `redline` for any header containing the
whole redline field set, `timesketch` for any other header containing the
whole timesketch field set, and the unknown result (`None`) otherwise; being
a total function, it raises no error. -/
theorem get_csv_dialect_complete (h : List String) :
    get_csv_dialect h =
      if ∀ f ∈ ["Alert", "Tag", "Timestamp", "Field", "Summary"], f ∈ h then some "redline"
      else if ∀ f ∈ ["message", "datetime", "timestamp_desc"], f ∈ h then some "timesketch"
      else none := by
  rw [get_csv_dialect_char]
  by_cases h1 : ∀ f ∈ ["Alert", "Tag", "Timestamp", "Field", "Summary"], f ∈ h
  · rw [if_pos h1, if_pos (show redlineFields ⊆ h from fun f hf => h1 f hf)]
  · rw [if_neg h1, if_neg (fun hsub : redlineFields ⊆ h => h1 (fun f hf => hsub hf))]
    by_cases h2 : ∀ f ∈ ["message", "datetime", "timestamp_desc"], f ∈ h
    · rw [if_pos h2, if_pos (show timesketchFields ⊆ h from fun f hf => h2 f hf)]
    · rw [if_neg h2, if_neg (fun hsub : timesketchFields ⊆ h => h2 (fun f hf => hsub hf))]

/-- C8: `get_validated_indices` is exactly the order- and duplicate-preserving
filter of the input by membership in `sketch_indices`; in particular it is
total (never raises) and is the identity when nothing needs removing. -/
theorem get_validated_indices_eq_filter (indices sketch_indices : List String) :
    get_validated_indices indices sketch_indices =
      indices.filter (fun x => decide (x ∈ sketch_indices)) := by
  unfold get_validated_indices
  by_cases hempty : (indices.filter (fun x => decide (x ∉ sketch_indices))).isEmpty
  · rw [if_pos hempty]
    have hall : ∀ x ∈ indices, x ∈ sketch_indices := by
      intro x hx
      by_contra hxs
      have hmem : x ∈ indices.filter (fun x => decide (x ∉ sketch_indices)) :=
        List.mem_filter.mpr ⟨hx, by simpa using hxs⟩
      rw [List.isEmpty_iff] at hempty
      rw [hempty] at hmem
      exact List.not_mem_nil x hmem
    exact (List.filter_eq_self.mpr (fun x hx => by simpa using hall x hx)).symm
  · rw [if_neg hempty]
    refine List.filter_congr (fun x hx => ?_)
    rw [decide_eq_decide]
    constructor
    · intro hnm
      by_contra hxs
      exact hnm (List.mem_filter.mpr ⟨hx, by simpa using hxs⟩)
    · intro hxs hm
      exact absurd hxs (by simpa using (List.mem_filter.mp hm).2)

/-- C10: the result of `get_csv_dialect` depends only on the set of column
names in the header: two headers with the same members (in any order, with
any duplicates) are classified identically. -/
theorem get_csv_dialect_mem_invariant (h₁ h₂ : List String)
    (hmem : ∀ x, x ∈ h₁ ↔ x ∈ h₂) :
    get_csv_dialect h₁ = get_csv_dialect h₂ := by
  rw [get_csv_dialect_char, get_csv_dialect_char]
  have hsub : ∀ (fs : List String), fs ⊆ h₁ ↔ fs ⊆ h₂ := by
    intro fs
    constructor <;> intro hs f hf
    · exact (hmem f).mp (hs hf)
    · exact (hmem f).mpr (hs hf)
  by_cases h1 : redlineFields ⊆ h₁
  · rw [if_pos h1, if_pos ((hsub _).mp h1)]
  · rw [if_neg h1, if_neg (fun hl => h1 ((hsub _).mpr hl))]
    by_cases h2 : timesketchFields ⊆ h₁
    · rw [if_pos h2, if_pos ((hsub _).mp h2)]
    · rw [if_neg h2, if_neg (fun hl => h2 ((hsub _).mpr hl))]

/-- Witness for C10 at concrete headers with equal member sets. -/
theorem get_csv_dialect_mem_invariant_witness :
    (∀ x, x ∈ ["datetime", "message", "timestamp_desc", "message"] ↔
        x ∈ ["message", "datetime", "timestamp_desc"]) ∧
      get_csv_dialect ["datetime", "message", "timestamp_desc", "message"] =
        get_csv_dialect ["message", "datetime", "timestamp_desc"] := by
  have hmem : ∀ x, x ∈ ["datetime", "message", "timestamp_desc", "message"] ↔
      x ∈ ["message", "datetime", "timestamp_desc"] := by
    intro x
    simp only [List.mem_cons, List.not_mem_nil, or_false]
    tauto
  exact ⟨hmem, get_csv_dialect_mem_invariant _ _ hmem⟩

/-- Appending inputs: if the first part runs without error, the run over the
concatenation is the first run's rows followed by the second run. -/
theorem runGen_append (f : Row → StepResult) (xs ys : List Row)
    (h : (runGen f xs).2 = none) :
    runGen f (xs ++ ys) = ((runGen f xs).1 ++ (runGen f ys).1, (runGen f ys).2) := by
  induction xs with
  | nil => simp [runGen]
  | cons r rest ih =>
    cases hf : f r with
    | fail e => rw [runGen, hf] at h; simp at h
    | skip =>
      rw [runGen, hf] at h
      simpa [runGen, hf] using ih h
    | yield y =>
      rw [runGen, hf] at h
      have hys := ih h
      simp [List.cons_append, runGen, hf, hys]

/-- A body that never skips yields one row per input when it runs without
error. -/
theorem runGen_length (f : Row → StepResult) (hns : ∀ r, f r ≠ .skip)
    (xs : List Row) (h : (runGen f xs).2 = none) :
    (runGen f xs).1.length = xs.length := by
  induction xs with
  | nil => simp [runGen]
  | cons r rest ih =>
    cases hf : f r with
    | fail e => rw [runGen, hf] at h; simp at h
    | skip => exact absurd hf (hns r)
    | yield y =>
      rw [runGen, hf] at h
      simp [runGen, hf, ih h]

/-- Every row in a run's output was yielded by the body on some input. -/
theorem runGen_mem (f : Row → StepResult) (xs : List Row) (row : EventRow)
    (h : row ∈ (runGen f xs).1) : ∃ x ∈ xs, f x = .yield row := by
  induction xs with
  | nil => simp [runGen] at h
  | cons r rest ih =>
    cases hf : f r with
    | fail e => rw [runGen, hf] at h; simp at h
    | skip =>
      rw [runGen, hf] at h
      obtain ⟨x, hx, hfx⟩ := ih h
      exact ⟨x, List.mem_cons_of_mem r hx, hfx⟩
    | yield y =>
      rw [runGen, hf] at h
      rcases List.mem_cons.mp h with heq | hmem
      · exact ⟨r, List.mem_cons_self r rest, by rw [hf, heq]⟩
      · obtain ⟨x, hx, hfx⟩ := ih hmem
        exact ⟨x, List.mem_cons_of_mem r hx, hfx⟩

/-- A skipped element is simply absent from the run: the rest of the input
is processed as if the element were not there. -/
theorem runGen_skip_mid (f : Row → StepResult) (pre post : List Row) (r : Row)
    (h : f r = .skip) :
    runGen f (pre ++ r :: post) = runGen f (pre ++ post) := by
  induction pre with
  | nil => simp [runGen, h]
  | cons p pre ih =>
    simp only [List.cons_append, runGen]
    cases hp : f p <;> simp [ih]

/-- The redline loop body never skips a row. -/
theorem redlineStep_ne_skip (parse : String → Except PyError PyDatetime)
    (r : Row) : redlineStep parse r ≠ .skip := by
  unfold redlineStep
  cases redlineRow parse r <;> simp

/-- On a redline-classified file, `read_and_validate_csv` is the run of the
redline loop body over the data rows. -/
theorem read_csv_dispatch_redline (parse : String → Except PyError PyDatetime)
    (file : CsvFile) (h : get_csv_dialect file.header = some "redline") :
    read_and_validate_csv parse file = runGen (redlineStep parse) file.rows := by
  simp [read_and_validate_csv, h, pyInOptStr,
    show pyInStr "redline" "redline" = true from by decide]

/-- On a timesketch-classified file, `read_and_validate_csv` is the run of
the timesketch loop body over the data rows. -/
theorem read_csv_dispatch_timesketch (parse : String → Except PyError PyDatetime)
    (file : CsvFile) (h : get_csv_dialect file.header = some "timesketch") :
    read_and_validate_csv parse file =
      runGen (timesketchRow parse file.header) file.rows := by
  simp [read_and_validate_csv, h, pyInOptStr,
    show pyInStr "redline" "timesketch" = false from by decide,
    show pyInStr "timesketch" "timesketch" = true from by decide]

/-- A timesketch classification puts the three timesketch fields in the
header. -/
theorem get_csv_dialect_timesketch_subset (hdr : List String)
    (h : get_csv_dialect hdr = some "timesketch") : timesketchFields ⊆ hdr := by
  rw [get_csv_dialect_char] at h
  by_cases h1 : redlineFields ⊆ hdr
  · rw [if_pos h1] at h
    simp at h
  · rw [if_neg h1] at h
    by_cases h2 : timesketchFields ⊆ hdr
    · exact h2
    · rw [if_neg h2] at h
      simp at h

/-- C1: on a header matching neither dialect, `get_csv_dialect` returns
`None`, and `read_and_validate_csv`'s dispatch `u'redline' in csv_dialect`
applies `in` to `None`: the function fails before yielding anything, but
with a `TypeError`, not with the documented
`RuntimeError('Unknown CSV format')`, whose branch is unreachable. -/
theorem read_csv_unknown_header_typeError :
    get_csv_dialect ["foo", "bar"] = none ∧
      read_and_validate_csv parseFix ⟨["foo", "bar"], [[("foo", "1"), ("bar", "2")]]⟩ =
        ([], some (.typeError "argument of type \x27NoneType\x27 is not iterable")) ∧
      read_and_validate_csv parseFix ⟨["foo", "bar"], [[("foo", "1"), ("bar", "2")]]⟩ ≠
        ([], some (.runtimeError "Unknown CSV format")) := by
  refine ⟨by decide, by decide, by decide⟩

/-- C4: in a redline-dialect file, a data row whose `Timestamp` parses is
yielded (at its position) exactly as the mapping with `message` the row's
`Summary`, `timestamp` the whole-second local epoch times 1,000,000,
`datetime` the ISO-8601 rendering, `timestamp_desc` the row's `Field`,
`alert` the row's `Alert`, and `tag` the one-element list of the row's
`Tag`. -/
theorem redline_row_mapping (parse : String → Except PyError PyDatetime)
    (hdr : List String) (pre post : List Row) (r : Row) (d : PyDatetime)
    (ts sum fld alr tg : String)
    (hdialect : get_csv_dialect hdr = some "redline")
    (hpre : (runGen (redlineStep parse) pre).2 = none)
    (hts : r.lookup "Timestamp" = some ts) (hd : parse ts = .ok d)
    (hsum : r.lookup "Summary" = some sum) (hfld : r.lookup "Field" = some fld)
    (halr : r.lookup "Alert" = some alr) (htg : r.lookup "Tag" = some tg) :
    (read_and_validate_csv parse ⟨hdr, pre ++ r :: post⟩).1[pre.length]? =
      some [("message", .str sum),
            ("timestamp", .int (d.epochSec * 1000000)),
            ("datetime", .str d.iso),
            ("timestamp_desc", .str fld),
            ("alert", .str alr),
            ("tag", .strList [tg])] := by
  rw [read_csv_dispatch_redline parse ⟨hdr, pre ++ r :: post⟩ hdialect]
  show (runGen (redlineStep parse) (pre ++ r :: post)).1[pre.length]? = _
  rw [runGen_append _ _ _ hpre]
  have hlen : (runGen (redlineStep parse) pre).1.length = pre.length :=
    runGen_length _ (redlineStep_ne_skip parse) _ hpre
  show ((runGen (redlineStep parse) pre).1 ++ _)[pre.length]? = _
  rw [List.getElem?_append_right (by omega), hlen, Nat.sub_self]
  have hrow : redlineStep parse r = .yield
      [("message", .str sum),
       ("timestamp", .int (d.epochSec * 1000000)),
       ("datetime", .str d.iso),
       ("timestamp_desc", .str fld),
       ("alert", .str alr),
       ("tag", .strList [tg])] := by
    simp [redlineStep, redlineRow, keyGet, hts, hd, hsum, hfld, halr, htg,
      Bind.bind, Except.bind, Pure.pure, Except.pure]
  simp [runGen, hrow]

/-- Witness for C4 at a concrete one-row redline file. -/
theorem redline_row_mapping_witness :
    get_csv_dialect ["Alert", "Tag", "Timestamp", "Field", "Summary"] = some "redline" ∧
    (runGen (redlineStep parseFix) []).2 = none ∧
    List.lookup "Timestamp"
        [("Alert", "A1"), ("Tag", "T1"), ("Timestamp", "2020-01-01 00:00:00"),
         ("Field", "F1"), ("Summary", "S1")] = some "2020-01-01 00:00:00" ∧
    parseFix "2020-01-01 00:00:00" = .ok ⟨1577836800, "2020-01-01T00:00:00"⟩ ∧
    (read_and_validate_csv parseFix
        ⟨["Alert", "Tag", "Timestamp", "Field", "Summary"],
         [[("Alert", "A1"), ("Tag", "T1"), ("Timestamp", "2020-01-01 00:00:00"),
           ("Field", "F1"), ("Summary", "S1")]]⟩).1[0]? =
      some [("message", .str "S1"),
            ("timestamp", .int (1577836800 * 1000000)),
            ("datetime", .str "2020-01-01T00:00:00"),
            ("timestamp_desc", .str "F1"),
            ("alert", .str "A1"),
            ("tag", .strList ["T1"])] := by
  refine ⟨by decide, by decide, by decide, by rfl, ?_⟩
  simpa using redline_row_mapping parseFix
    ["Alert", "Tag", "Timestamp", "Field", "Summary"] [] []
    [("Alert", "A1"), ("Tag", "T1"), ("Timestamp", "2020-01-01 00:00:00"),
     ("Field", "F1"), ("Summary", "S1")]
    ⟨1577836800, "2020-01-01T00:00:00"⟩ "2020-01-01 00:00:00" "S1" "F1" "A1" "T1"
    (by decide) (by decide) (by decide) (by rfl) (by decide) (by decide)
    (by decide) (by decide)

/-- C5: in a timesketch-dialect file whose header has no `timestamp` column,
a data row whose `datetime` fails to parse (a `ValueError`) is silently
dropped: the output is exactly that of the same file without that row, so
no error is raised and all later rows are still processed. -/
theorem timesketch_unparsable_row_skipped (parse : String → Except PyError PyDatetime)
    (hdr : List String) (pre post : List Row) (r : Row) (s m : String)
    (hdialect : get_csv_dialect hdr = some "timesketch")
    (hnoTs : "timestamp" ∉ hdr)
    (hlook : r.lookup "datetime" = some s)
    (hparse : parse s = .error (.valueError m)) :
    read_and_validate_csv parse ⟨hdr, pre ++ r :: post⟩ =
      read_and_validate_csv parse ⟨hdr, pre ++ post⟩ := by
  rw [read_csv_dispatch_timesketch parse ⟨hdr, pre ++ r :: post⟩ hdialect,
    read_csv_dispatch_timesketch parse ⟨hdr, pre ++ post⟩ hdialect]
  apply runGen_skip_mid
  have hdt : "datetime" ∈ hdr :=
    get_csv_dialect_timesketch_subset hdr hdialect (by decide)
  simp [timesketchRow, hnoTs, hdt, keyGet, hlook, hparse]

/-- Witness for C5 at a concrete two-row timesketch file whose first row has
an unparsable `datetime`. -/
theorem timesketch_unparsable_row_skipped_witness :
    get_csv_dialect ["message", "datetime", "timestamp_desc"] = some "timesketch" ∧
    "timestamp" ∉ ["message", "datetime", "timestamp_desc"] ∧
    List.lookup "datetime"
        [("message", "m1"), ("datetime", "not a date"), ("timestamp_desc", "td")] =
      some "not a date" ∧
    parseFix "not a date" = .error (.valueError "Unknown string format: not a date") ∧
    read_and_validate_csv parseFix
        ⟨["message", "datetime", "timestamp_desc"],
         [[("message", "m1"), ("datetime", "not a date"), ("timestamp_desc", "td")],
          [("message", "m2"), ("datetime", "2020-01-01 00:00:00"),
           ("timestamp_desc", "td")]]⟩ =
      read_and_validate_csv parseFix
        ⟨["message", "datetime", "timestamp_desc"],
         [[("message", "m2"), ("datetime", "2020-01-01 00:00:00"),
           ("timestamp_desc", "td")]]⟩ := by
  refine ⟨by decide, by decide, by decide, by rfl, ?_⟩
  simpa using timesketch_unparsable_row_skipped parseFix
    ["message", "datetime", "timestamp_desc"] []
    [[("message", "m2"), ("datetime", "2020-01-01 00:00:00"), ("timestamp_desc", "td")]]
    [("message", "m1"), ("datetime", "not a date"), ("timestamp_desc", "td")]
    "not a date" "Unknown string format: not a date"
    (by decide) (by decide) (by decide) (by rfl)


/-- Unfolding `List.lookup` on a cons, in `if` form. -/
theorem lookup_cons_eq {β : Type} (k : String) (p : String × β) (l : List (String × β)) :
    List.lookup k (p :: l) = if k = p.1 then some p.2 else List.lookup k l := by
  rcases p with ⟨a, b⟩
  by_cases hk : k = a
  · rw [List.lookup_cons, show (k == a) = true from beq_iff_eq.mpr hk]
    simp [hk]
  · rw [List.lookup_cons, show (k == a) = false from beq_eq_false_iff_ne.mpr hk]
    simp [hk]

/-- A lookup succeeds exactly when the key occurs among the mapping's keys. -/
theorem lookup_isSome_iff {β : Type} (o : List (String × β)) (k : String) :
    (o.lookup k).isSome ↔ k ∈ o.map Prod.fst := by
  induction o with
  | nil => simp
  | cons p rest ih =>
    rw [lookup_cons_eq]
    by_cases hk : k = p.1 <;> simp [hk, ih]

/-- Overwriting the first binding of an occurring key: the key now maps to
the new value. -/
theorem lookup_overwrite (r : EventRow) (k : String) (v : Value)
    (h : (r.lookup k).isSome) :
    (r.map (fun p => if p.1 = k then (k, v) else p)).lookup k = some v := by
  induction r with
  | nil => simp at h
  | cons p rest ih =>
    by_cases hk : p.1 = k
    · simp only [List.map_cons, if_pos hk]
      rw [lookup_cons_eq]
      simp
    · simp only [List.map_cons, if_neg hk]
      rw [lookup_cons_eq] at h ⊢
      rw [if_neg (fun he => hk he.symm)] at h ⊢
      exact ih h

/-- Appending a binding for an absent key: the key now maps to the value. -/
theorem lookup_append_missing (r : EventRow) (k : String) (v : Value)
    (h : r.lookup k = none) :
    (r ++ [(k, v)]).lookup k = some v := by
  induction r with
  | nil => simp [lookup_cons_eq]
  | cons p rest ih =>
    rw [lookup_cons_eq] at h
    by_cases hk : k = p.1
    · rw [if_pos hk] at h
      simp at h
    · rw [if_neg hk] at h
      simp only [List.cons_append]
      rw [lookup_cons_eq, if_neg hk]
      exact ih h

/-- The update `setKey` binds the written key to the written value. -/
theorem setKey_lookup_self (r : EventRow) (k : String) (v : Value) :
    (setKey r k v).lookup k = some v := by
  unfold setKey
  by_cases h : (r.lookup k).isSome
  · rw [if_pos h]
    exact lookup_overwrite r k v h
  · rw [if_neg h]
    exact lookup_append_missing r k v (Option.not_isSome_iff_eq_none.mp h)

/-- Overwriting one key leaves other keys' lookups unchanged. -/
theorem lookup_overwrite_ne (r : EventRow) (k k' : String) (v : Value)
    (hne : k' ≠ k) :
    (r.map (fun p => if p.1 = k then (k, v) else p)).lookup k' = r.lookup k' := by
  induction r with
  | nil => simp
  | cons p rest ih =>
    by_cases hk : p.1 = k
    · simp only [List.map_cons, if_pos hk]
      rw [lookup_cons_eq, lookup_cons_eq]
      rw [if_neg (show ¬k' = (k, v).1 from hne), if_neg (fun he => hne (he.trans hk))]
      exact ih
    · simp only [List.map_cons, if_neg hk]
      rw [lookup_cons_eq, lookup_cons_eq]
      by_cases hbk : k' = p.1
      · rw [if_pos hbk, if_pos hbk]
      · rw [if_neg hbk, if_neg hbk]
        exact ih

/-- Appending a binding for one key leaves other keys' lookups unchanged. -/
theorem lookup_append_ne (r : EventRow) (k k' : String) (v : Value)
    (hne : k' ≠ k) :
    (r ++ [(k, v)]).lookup k' = r.lookup k' := by
  induction r with
  | nil =>
    simp only [List.nil_append, List.lookup_nil]
    rw [lookup_cons_eq, if_neg (show ¬k' = (k, v).1 from hne)]
    rfl
  | cons p rest ih =>
    simp only [List.cons_append]
    rw [lookup_cons_eq, lookup_cons_eq]
    by_cases hbk : k' = p.1
    · rw [if_pos hbk, if_pos hbk]
    · rw [if_neg hbk, if_neg hbk]
      exact ih

/-- The update `setKey` leaves every other key's binding unchanged. -/
theorem setKey_lookup_ne (r : EventRow) (k k' : String) (v : Value)
    (hne : k' ≠ k) : (setKey r k v).lookup k' = r.lookup k' := by
  unfold setKey
  by_cases h : (r.lookup k).isSome
  · rw [if_pos h]
    exact lookup_overwrite_ne r k k' v hne
  · rw [if_neg h]
    exact lookup_append_ne r k k' v hne

/-- Appending inputs for the line-numbered runner: if the first part runs
without error, the run over the concatenation is the first run's rows
followed by the second run, whose line counter starts after the first
part's lines. -/
theorem runGenIdx_append (f : Nat → String → StepResult) (n : Nat)
    (xs ys : List String) (h : (runGenIdx f n xs).2 = none) :
    runGenIdx f n (xs ++ ys) =
      ((runGenIdx f n xs).1 ++ (runGenIdx f (n + xs.length) ys).1,
        (runGenIdx f (n + xs.length) ys).2) := by
  induction xs generalizing n with
  | nil => simp [runGenIdx]
  | cons l rest ih =>
    cases hf : f n l with
    | fail e =>
      rw [runGenIdx, hf] at h
      simp at h
    | skip =>
      rw [runGenIdx, hf] at h
      have hys := ih (n + 1) h
      rw [show n + 1 + rest.length = n + (rest.length + 1) from by omega] at hys
      simpa [runGenIdx, hf] using hys
    | yield y =>
      rw [runGenIdx, hf] at h
      have hys := ih (n + 1) h
      rw [show n + 1 + rest.length = n + (rest.length + 1) from by omega] at hys
      simp [List.cons_append, runGenIdx, hf, hys]

/-- A line body that never skips yields one row per line when it runs
without error. -/
theorem runGenIdx_length (f : Nat → String → StepResult)
    (hns : ∀ n l, f n l ≠ .skip) (n : Nat) (xs : List String)
    (h : (runGenIdx f n xs).2 = none) :
    (runGenIdx f n xs).1.length = xs.length := by
  induction xs generalizing n with
  | nil => simp [runGenIdx]
  | cons l rest ih =>
    cases hf : f n l with
    | fail e =>
      rw [runGenIdx, hf] at h
      simp at h
    | skip => exact absurd hf (hns n l)
    | yield y =>
      rw [runGenIdx, hf] at h
      simp [runGenIdx, hf, ih (n + 1) h]

/-- Every row in a line-numbered run's output was yielded by the body on
some line. -/
theorem runGenIdx_mem (f : Nat → String → StepResult) (n : Nat)
    (xs : List String) (row : EventRow) (h : row ∈ (runGenIdx f n xs).1) :
    ∃ k l, l ∈ xs ∧ f k l = .yield row := by
  induction xs generalizing n with
  | nil => simp [runGenIdx] at h
  | cons l rest ih =>
    cases hf : f n l with
    | fail e =>
      rw [runGenIdx, hf] at h
      simp at h
    | skip =>
      rw [runGenIdx, hf] at h
      obtain ⟨k, l', hl', hfl'⟩ := ih (n + 1) h
      exact ⟨k, l', List.mem_cons_of_mem l hl', hfl'⟩
    | yield y =>
      rw [runGenIdx, hf] at h
      rcases List.mem_cons.mp h with heq | hmem
      · exact ⟨n, l, List.mem_cons_self l rest, by rw [hf, heq]⟩
      · obtain ⟨k, l', hl', hfl'⟩ := ih (n + 1) hmem
        exact ⟨k, l', List.mem_cons_of_mem l hl', hfl'⟩

/-- The JSONL loop body never skips a line: every line either yields a row
or raises. -/
theorem processLine_ne_skip (jp : String → Except PyError EventRow)
    (pd : String → Except PyError PyDatetime) (fts : Int → PyDatetime)
    (n : Nat) (l : String) : processLine jp pd fts n l ≠ .skip := by
  unfold processLine
  cases (do
      let o ← jp l
      processObj pd fts n o : Except PyError EventRow) with
  | ok row => simp
  | error e => cases e <;> simp

/-- C6: in a JSONL file whose first invalid-JSON line is preceded by lines
that all process cleanly, `read_and_validate_jsonl` yields exactly one row
per preceding line and then fails with the `RuntimeError` naming that line's
1-based number and the underlying parse error; nothing after the bad line is
processed. -/
theorem jsonl_invalid_line_fatal (jp : String → Except PyError EventRow)
    (pd : String → Except PyError PyDatetime) (fts : Int → PyDatetime)
    (pre rest : List String) (bad : String) (m : String)
    (hpre : (runGenIdx (processLine jp pd fts) 1 pre).2 = none)
    (hbad : jp bad = .error (.valueError m)) :
    read_and_validate_jsonl jp pd fts (pre ++ bad :: rest) =
      ((runGenIdx (processLine jp pd fts) 1 pre).1,
        some (.runtimeError
          ("Error parsing JSON at line " ++ toString (pre.length + 1) ++ ": " ++ m))) ∧
      (runGenIdx (processLine jp pd fts) 1 pre).1.length = pre.length := by
  constructor
  · unfold read_and_validate_jsonl
    rw [runGenIdx_append _ _ _ _ hpre]
    have hfail : processLine jp pd fts (1 + pre.length) bad =
        .fail (.runtimeError
          ("Error parsing JSON at line " ++ toString (1 + pre.length) ++ ": " ++ m)) := by
      simp [processLine, hbad, Bind.bind, Except.bind]
    rw [show (1 : Nat) + pre.length = pre.length + 1 from Nat.add_comm 1 pre.length] at hfail
    rw [show (1 : Nat) + pre.length = pre.length + 1 from Nat.add_comm 1 pre.length]
    simp [runGenIdx, hfail]
  · exact runGenIdx_length _ (processLine_ne_skip jp pd fts) _ _ hpre

/-- Witness for C6 at a concrete three-line file whose second line is the
first invalid one. -/
theorem jsonl_invalid_line_fatal_witness :
    (runGenIdx (processLine jpFix parseFix ftsFix) 1 ["a"]).2 = none ∧
    jpFix "b" = .error (.valueError "No JSON object could be decoded") ∧
    (read_and_validate_jsonl jpFix parseFix ftsFix (["a"] ++ "b" :: ["c"]) =
      ((runGenIdx (processLine jpFix parseFix ftsFix) 1 ["a"]).1,
        some (.runtimeError
          ("Error parsing JSON at line " ++ toString (["a"].length + 1) ++ ": " ++
            "No JSON object could be decoded"))) ∧
      (runGenIdx (processLine jpFix parseFix ftsFix) 1 ["a"]).1.length = ["a"].length) := by
  refine ⟨by decide, by rfl, ?_⟩
  exact jsonl_invalid_line_fatal jpFix parseFix ftsFix ["a"] ["c"] "b"
    "No JSON object could be decoded" (by decide) (by rfl)

/-- On an object with no `timestamp` key, a `datetime` key holding a string
that parses, and the other two mandatory fields present, the JSONL body
succeeds and its only change is to store the parsed datetime object under
`timestamp`. -/
theorem processObj_dt_only (pd : String → Except PyError PyDatetime)
    (fts : Int → PyDatetime) (lineno : Nat) (o : EventRow) (s : String)
    (d : PyDatetime)
    (hnoTs : o.lookup "timestamp" = none)
    (hdt : o.lookup "datetime" = some (.str s))
    (hparse : pd s = .ok d)
    (hmsg : (o.lookup "message").isSome)
    (htd : (o.lookup "timestamp_desc").isSome) :
    processObj pd fts lineno o = .ok (setKey o "timestamp" (.pydt d)) := by
  have hTsKeys : "timestamp" ∉ o.map Prod.fst := by
    rw [← lookup_isSome_iff]
    simp [hnoTs]
  have hDtKeys : "datetime" ∈ o.map Prod.fst := by
    rw [← lookup_isSome_iff]
    simp [hdt]
  have hcond1 : ¬("datetime" ∉ o.map Prod.fst ∧ "timestamp" ∈ o.map Prod.fst) :=
    fun hc => hTsKeys hc.2
  have hcond2 : "timestamp" ∉ o.map Prod.fst ∧ "datetime" ∈ o.map Prod.fst :=
    ⟨hTsKeys, hDtKeys⟩
  unfold processObj
  simp only [if_neg hcond1, if_pos hcond2]
  simp only [Bind.bind, Except.bind, Pure.pure, Except.pure, hdt, parseArgStr, hparse]
  have hmiss : timesketchFields.filter
      (fun f => ((setKey o "timestamp" (.pydt d)).lookup f).isNone) = [] := by
    obtain ⟨mv, hmv⟩ := Option.isSome_iff_exists.mp hmsg
    obtain ⟨tv, htv⟩ := Option.isSome_iff_exists.mp htd
    have h1 : (setKey o "timestamp" (.pydt d)).lookup "message" = some mv := by
      rw [setKey_lookup_ne _ _ _ _ (by decide)]
      exact hmv
    have h2 : (setKey o "timestamp" (.pydt d)).lookup "datetime" = some (.str s) := by
      rw [setKey_lookup_ne _ _ _ _ (by decide)]
      exact hdt
    have h3 : (setKey o "timestamp" (.pydt d)).lookup "timestamp_desc" = some tv := by
      rw [setKey_lookup_ne _ _ _ _ (by decide)]
      exact htv
    simp [timesketchFields, h1, h2, h3]
  simp [hmiss]

/-- C7: for a JSONL line whose parsed object lacks `timestamp` but has a
parsable string `datetime` (and the other mandatory fields),
`read_and_validate_jsonl` yields the object with the raw parsed datetime
object stored under `timestamp` — not an integer epoch-microseconds
value. -/
theorem jsonl_datetime_stores_parsed_object (jp : String → Except PyError EventRow)
    (pd : String → Except PyError PyDatetime) (fts : Int → PyDatetime)
    (line : String) (o : EventRow) (s : String) (d : PyDatetime)
    (hjp : jp line = .ok o)
    (hnoTs : o.lookup "timestamp" = none)
    (hdt : o.lookup "datetime" = some (.str s))
    (hparse : pd s = .ok d)
    (hmsg : (o.lookup "message").isSome)
    (htd : (o.lookup "timestamp_desc").isSome) :
    ∃ row, read_and_validate_jsonl jp pd fts [line] = ([row], none) ∧
      row.lookup "timestamp" = some (.pydt d) ∧
      ∀ z : Int, row.lookup "timestamp" ≠ some (.int z) := by
  refine ⟨setKey o "timestamp" (.pydt d), ?_, ?_, ?_⟩
  · have hobj := processObj_dt_only pd fts 1 o s d hnoTs hdt hparse hmsg htd
    have hline : processLine jp pd fts 1 line =
        .yield (setKey o "timestamp" (.pydt d)) := by
      simp [processLine, hjp, hobj, Bind.bind, Except.bind]
    simp [read_and_validate_jsonl, runGenIdx, hline]
  · exact setKey_lookup_self o "timestamp" (.pydt d)
  · intro z
    rw [setKey_lookup_self o "timestamp" (.pydt d)]
    simp

/-- Witness for C7 at a concrete one-line file. -/
theorem jsonl_datetime_stores_parsed_object_witness :
    jpFixDt "j" = .ok [("message", .str "m"), ("datetime", .str "2020-01-01 00:00:00"),
        ("timestamp_desc", .str "td")] ∧
    parseFix "2020-01-01 00:00:00" = .ok ⟨1577836800, "2020-01-01T00:00:00"⟩ ∧
    ∃ row, read_and_validate_jsonl jpFixDt parseFix ftsFix ["j"] = ([row], none) ∧
      row.lookup "timestamp" = some (.pydt ⟨1577836800, "2020-01-01T00:00:00"⟩) ∧
      ∀ z : Int, row.lookup "timestamp" ≠ some (.int z) := by
  refine ⟨by rfl, by rfl, ?_⟩
  exact jsonl_datetime_stores_parsed_object jpFixDt parseFix ftsFix "j"
    [("message", .str "m"), ("datetime", .str "2020-01-01 00:00:00"),
     ("timestamp_desc", .str "td")]
    "2020-01-01 00:00:00" ⟨1577836800, "2020-01-01T00:00:00"⟩
    (by rfl) (by decide) (by decide) (by rfl) (by decide) (by decide)

/-- Lookup on a CSV row viewed as an event row. -/
theorem toEventRow_lookup (r : Row) (k : String) :
    (toEventRow r).lookup k = (r.lookup k).map Value.str := by
  induction r with
  | nil => simp [toEventRow]
  | cons p rest ih =>
    unfold toEventRow at ih ⊢
    simp only [List.map_cons]
    rw [lookup_cons_eq, lookup_cons_eq]
    by_cases hk : k = p.1
    · simp [hk]
    · simp [hk, ih]

/-- If the mandatory-field filter comes back empty, every mandatory field's
lookup succeeds. -/
theorem mandatory_of_filter_empty (r : EventRow)
    (hemp : (timesketchFields.filter (fun f => (r.lookup f).isNone)).isEmpty) :
    ∀ f ∈ timesketchFields, (r.lookup f).isSome := by
  intro f hf
  rw [List.isEmpty_iff] at hemp
  cases hr : r.lookup f with
  | some v => simp
  | none =>
    have : f ∈ timesketchFields.filter (fun f => (r.lookup f).isNone) :=
      List.mem_filter.mpr ⟨hf, by simp [hr]⟩
    rw [hemp] at this
    simp at this

/-- A successful redline row build contains the four required fields. -/
theorem redlineRow_ok_fields (parse : String → Except PyError PyDatetime)
    (r : Row) (row : EventRow) (h : redlineRow parse r = .ok row) :
    ∀ k ∈ ["message", "timestamp", "datetime", "timestamp_desc"],
      (row.lookup k).isSome := by
  unfold redlineRow at h
  simp only [Bind.bind] at h
  cases h1 : keyGet r "Timestamp" with
  | error e => rw [h1] at h; simp [Except.bind] at h
  | ok ts =>
    rw [h1] at h
    simp only [Except.bind] at h
    cases h2 : parse ts with
    | error e => rw [h2] at h; simp [Except.bind] at h
    | ok d =>
      rw [h2] at h
      simp only [Except.bind] at h
      cases h3 : keyGet r "Summary" with
      | error e => rw [h3] at h; simp [Except.bind] at h
      | ok sum =>
        rw [h3] at h
        simp only [Except.bind] at h
        cases h4 : keyGet r "Field" with
        | error e => rw [h4] at h; simp [Except.bind] at h
        | ok fld =>
          rw [h4] at h
          simp only [Except.bind] at h
          cases h5 : keyGet r "Alert" with
          | error e => rw [h5] at h; simp [Except.bind] at h
          | ok alr =>
            rw [h5] at h
            simp only [Except.bind] at h
            cases h6 : keyGet r "Tag" with
            | error e => rw [h6] at h; simp [Except.bind] at h
            | ok tg =>
              rw [h6] at h
              simp only [Except.bind, Pure.pure, Except.pure, Except.ok.injEq] at h
              intro k hk
              rw [← h]
              fin_cases hk <;> simp [lookup_cons_eq]

/-- Inversion for the timesketch loop body: a yielded row is either the
original row with a derived `timestamp`, or the original row passed
through. -/
theorem timesketchRow_yield_inv (parse : String → Except PyError PyDatetime)
    (hdr : List String) (x : Row) (row : EventRow)
    (h : timesketchRow parse hdr x = .yield row) :
    (("timestamp" ∉ hdr ∧ "datetime" ∈ hdr) ∧
      ∃ s d, x.lookup "datetime" = some s ∧ parse s = .ok d ∧
        row = setKey (toEventRow x) "timestamp" (.int (d.epochSec * 1000000))) ∨
    (¬("timestamp" ∉ hdr ∧ "datetime" ∈ hdr) ∧ row = toEventRow x) := by
  unfold timesketchRow at h
  by_cases hc : "timestamp" ∉ hdr ∧ "datetime" ∈ hdr
  · rw [if_pos hc] at h
    left
    refine ⟨hc, ?_⟩
    cases h1 : keyGet x "datetime" with
    | error e => rw [h1] at h; simp at h
    | ok s =>
      rw [h1] at h
      dsimp only at h
      cases h2 : parse s with
      | error e =>
        rw [h2] at h
        cases e <;> simp at h
      | ok d =>
        rw [h2] at h
        dsimp only at h
        have hrow : setKey (toEventRow x) "timestamp"
            (.int (d.epochSec * 1000000)) = row := by
          injection h
        have hlook : x.lookup "datetime" = some s := by
          unfold keyGet at h1
          cases hx : x.lookup "datetime" with
          | some v =>
            rw [hx] at h1
            injection h1 with hv
            rw [hv]
          | none => rw [hx] at h1; simp at h1
        exact ⟨s, d, hlook, h2, hrow.symm⟩
  · rw [if_neg hc] at h
    right
    have hrow : toEventRow x = row := by injection h
    exact ⟨hc, hrow.symm⟩

/-- Inversion for the JSONL line body: a yielded row comes from a
successfully parsed line whose object body succeeded. -/
theorem processLine_yield_inv (jp : String → Except PyError EventRow)
    (pd : String → Except PyError PyDatetime) (fts : Int → PyDatetime)
    (n : Nat) (l : String) (row : EventRow)
    (h : processLine jp pd fts n l = .yield row) :
    ∃ o, jp l = .ok o ∧ processObj pd fts n o = .ok row := by
  unfold processLine at h
  simp only [Bind.bind] at h
  cases hjp : jp l with
  | error e =>
    rw [hjp] at h
    simp only [Except.bind] at h
    cases e <;> simp at h
  | ok o =>
    rw [hjp] at h
    simp only [Except.bind] at h
    cases hobj : processObj pd fts n o with
    | error e =>
      rw [hobj] at h
      cases e <;> simp at h
    | ok r' =>
      rw [hobj] at h
      dsimp only at h
      have hr : r' = row := by injection h
      exact ⟨o, rfl, by rw [hobj, hr]⟩

/-- A successful JSONL object body yields a row with all three mandatory
fields and a `timestamp` field. -/
theorem processObj_ok_fields (pd : String → Except PyError PyDatetime)
    (fts : Int → PyDatetime) (n : Nat) (o : EventRow) (row : EventRow)
    (h : processObj pd fts n o = .ok row) :
    (∀ f ∈ timesketchFields, (row.lookup f).isSome) ∧
      (row.lookup "timestamp").isSome := by
  unfold processObj at h
  simp only [Bind.bind] at h
  by_cases hc1 : "datetime" ∉ o.map Prod.fst ∧ "timestamp" ∈ o.map Prod.fst
  · have hc2 : ¬("timestamp" ∉ o.map Prod.fst ∧ "datetime" ∈ o.map Prod.fst) :=
      fun hc => hc.1 hc1.2
    simp only [if_pos hc1, if_neg hc2] at h
    obtain ⟨tv, htv⟩ := Option.isSome_iff_exists.mp
      ((lookup_isSome_iff o "timestamp").mpr hc1.2)
    rw [htv] at h
    simp only [Except.bind] at h
    cases hint : pyIntOfString ((pyStr tv).take 10) with
    | error e => rw [hint] at h; simp [Except.bind] at h
    | ok ep =>
      rw [hint] at h
      simp only [Except.bind, Pure.pure, Except.pure] at h
      by_cases hemp : ((timesketchFields.filter
          (fun f => ((setKey o "datetime" (.str (fts ep).iso)).lookup f).isNone))).isEmpty
      · rw [if_pos hemp] at h
        have hrow : setKey o "datetime" (.str (fts ep).iso) = row := by injection h
        subst hrow
        refine ⟨mandatory_of_filter_empty _ hemp, ?_⟩
        rw [setKey_lookup_ne _ _ _ _ (by decide), htv]
        simp
      · rw [if_neg hemp] at h
        simp at h
  · simp only [if_neg hc1] at h
    simp only [Except.bind, Pure.pure, Except.pure] at h
    by_cases hc2 : "timestamp" ∉ o.map Prod.fst ∧ "datetime" ∈ o.map Prod.fst
    · simp only [if_pos hc2] at h
      obtain ⟨dv, hdv⟩ := Option.isSome_iff_exists.mp
        ((lookup_isSome_iff o "datetime").mpr hc2.2)
      rw [hdv] at h
      simp only [Except.bind] at h
      cases hps : parseArgStr dv with
      | error e => rw [hps] at h; simp [Except.bind] at h
      | ok s =>
        rw [hps] at h
        simp only [Except.bind] at h
        cases hpd : pd s with
        | error e => rw [hpd] at h; simp [Except.bind] at h
        | ok d =>
          rw [hpd] at h
          simp only [Except.bind, Pure.pure, Except.pure] at h
          by_cases hemp : ((timesketchFields.filter
              (fun f => ((setKey o "timestamp" (.pydt d)).lookup f).isNone))).isEmpty
          · rw [if_pos hemp] at h
            have hrow : setKey o "timestamp" (.pydt d) = row := by injection h
            subst hrow
            refine ⟨mandatory_of_filter_empty _ hemp, ?_⟩
            rw [setKey_lookup_self]
            simp
          · rw [if_neg hemp] at h
            simp at h
    · simp only [if_neg hc2] at h
      by_cases hemp : ((timesketchFields.filter
          (fun f => (o.lookup f).isNone))).isEmpty
      · rw [if_pos hemp] at h
        have hrow : o = row := by injection h
        subst hrow
        have hmand := mandatory_of_filter_empty _ hemp
        refine ⟨hmand, ?_⟩
        have hdt : "datetime" ∈ o.map Prod.fst :=
          (lookup_isSome_iff o "datetime").mp (hmand "datetime" (by decide))
        have hts : ¬"timestamp" ∉ o.map Prod.fst := fun hn => hc2 ⟨hn, hdt⟩
        exact (lookup_isSome_iff o "timestamp").mpr (not_not.mp hts)
      · rw [if_neg hemp] at h
        simp at h

/-- On an unknown-dialect file, `read_and_validate_csv` raises at once. -/
theorem read_csv_dispatch_unknown (parse : String → Except PyError PyDatetime)
    (file : CsvFile) (h : get_csv_dialect file.header = none) :
    read_and_validate_csv parse file =
      ([], some (.typeError "argument of type \x27NoneType\x27 is not iterable")) := by
  simp [read_and_validate_csv, h, pyInOptStr]

/-- The classifier `get_csv_dialect` takes no value other than the two dialect names. -/
theorem get_csv_dialect_values (hdr : List String) (dia : String)
    (h : get_csv_dialect hdr = some dia) : dia = "redline" ∨ dia = "timesketch" := by
  rw [get_csv_dialect_char] at h
  by_cases h1 : redlineFields ⊆ hdr
  · rw [if_pos h1] at h
    exact Or.inl (by injection h with hv; exact hv.symm)
  · rw [if_neg h1] at h
    by_cases h2 : timesketchFields ⊆ hdr
    · rw [if_pos h2] at h
      exact Or.inr (by injection h with hv; exact hv.symm)
    · rw [if_neg h2] at h
      simp at h

/-- C9: every event row yielded by `read_and_validate_csv` (on rows binding
all header columns, as `csv.DictReader` guarantees) or by
`read_and_validate_jsonl` contains the four required fields `message`,
`timestamp`, `datetime` and `timestamp_desc`; a row that would lack one
makes the producing run raise instead of yielding it (so such a row never
appears in the yielded list). -/
theorem yielded_rows_have_required_fields :
    (∀ (parse : String → Except PyError PyDatetime) (file : CsvFile),
        (∀ r ∈ file.rows, ∀ k ∈ file.header, (r.lookup k).isSome) →
        ∀ row ∈ (read_and_validate_csv parse file).1,
          ∀ k ∈ ["message", "timestamp", "datetime", "timestamp_desc"],
            (row.lookup k).isSome) ∧
    (∀ (jp : String → Except PyError EventRow)
        (pd : String → Except PyError PyDatetime) (fts : Int → PyDatetime)
        (lines : List String),
        ∀ row ∈ (read_and_validate_jsonl jp pd fts lines).1,
          ∀ k ∈ ["message", "timestamp", "datetime", "timestamp_desc"],
            (row.lookup k).isSome) := by
  constructor
  · intro parse file hbind row hrow k hk
    cases hd : get_csv_dialect file.header with
    | none =>
      rw [read_csv_dispatch_unknown parse file hd] at hrow
      simp at hrow
    | some dia =>
      rcases get_csv_dialect_values _ _ hd with hdia | hdia
      · subst hdia
        rw [read_csv_dispatch_redline parse file hd] at hrow
        obtain ⟨x, _, hyield⟩ := runGen_mem _ _ _ hrow
        have hok : redlineRow parse x = .ok row := by
          unfold redlineStep at hyield
          cases hrr : redlineRow parse x with
          | ok y =>
            rw [hrr] at hyield
            dsimp only at hyield
            have hy : y = row := by injection hyield
            rw [hy]
          | error e => rw [hrr] at hyield; simp at hyield
        exact redlineRow_ok_fields parse x row hok k hk
      · subst hdia
        rw [read_csv_dispatch_timesketch parse file hd] at hrow
        obtain ⟨x, hx, hyield⟩ := runGen_mem _ _ _ hrow
        have hsub := get_csv_dialect_timesketch_subset _ hd
        have hmsg : "message" ∈ file.header := hsub (by decide)
        have hdtm : "datetime" ∈ file.header := hsub (by decide)
        have htdm : "timestamp_desc" ∈ file.header := hsub (by decide)
        rcases timesketchRow_yield_inv parse file.header x row hyield with
          ⟨_, s, d, _, _, hroweq⟩ | ⟨hnc, hroweq⟩
        · subst hroweq
          fin_cases hk
          · rw [setKey_lookup_ne _ _ _ _ (by decide), toEventRow_lookup]
            simpa using hbind x hx "message" hmsg
          · rw [setKey_lookup_self]
            simp
          · rw [setKey_lookup_ne _ _ _ _ (by decide), toEventRow_lookup]
            simpa using hbind x hx "datetime" hdtm
          · rw [setKey_lookup_ne _ _ _ _ (by decide), toEventRow_lookup]
            simpa using hbind x hx "timestamp_desc" htdm
        · subst hroweq
          have htsh : "timestamp" ∈ file.header :=
            not_not.mp (fun hn => hnc ⟨hn, hdtm⟩)
          fin_cases hk
          · rw [toEventRow_lookup]
            simpa using hbind x hx "message" hmsg
          · rw [toEventRow_lookup]
            simpa using hbind x hx "timestamp" htsh
          · rw [toEventRow_lookup]
            simpa using hbind x hx "datetime" hdtm
          · rw [toEventRow_lookup]
            simpa using hbind x hx "timestamp_desc" htdm
  · intro jp pd fts lines row hrow k hk
    unfold read_and_validate_jsonl at hrow
    obtain ⟨n, l, _, hyield⟩ := runGenIdx_mem _ _ _ _ hrow
    obtain ⟨o, _, hobj⟩ := processLine_yield_inv _ _ _ _ _ _ hyield
    obtain ⟨hmand, hts⟩ := processObj_ok_fields _ _ _ _ _ hobj
    fin_cases hk
    · exact hmand "message" (by decide)
    · exact hts
    · exact hmand "datetime" (by decide)
    · exact hmand "timestamp_desc" (by decide)

/-- Witness for C9 at a concrete timesketch CSV file and a concrete JSONL
file. -/
theorem yielded_rows_have_required_fields_witness :
    (∀ r ∈ [[("message", "m"), ("datetime", "2020-01-01 00:00:00"),
          ("timestamp_desc", "td")]],
        ∀ k ∈ ["message", "datetime", "timestamp_desc"], (List.lookup k r).isSome) ∧
    (∀ row ∈ (read_and_validate_csv parseFix
        ⟨["message", "datetime", "timestamp_desc"],
         [[("message", "m"), ("datetime", "2020-01-01 00:00:00"),
           ("timestamp_desc", "td")]]⟩).1,
        ∀ k ∈ ["message", "timestamp", "datetime", "timestamp_desc"],
          (row.lookup k).isSome) ∧
    (∀ row ∈ (read_and_validate_jsonl jpFix parseFix ftsFix ["a"]).1,
        ∀ k ∈ ["message", "timestamp", "datetime", "timestamp_desc"],
          (row.lookup k).isSome) :=
  ⟨by decide,
   yielded_rows_have_required_fields.1 parseFix
     ⟨["message", "datetime", "timestamp_desc"],
      [[("message", "m"), ("datetime", "2020-01-01 00:00:00"),
        ("timestamp_desc", "td")]]⟩ (by decide),
   yielded_rows_have_required_fields.2 jpFix parseFix ftsFix ["a"]⟩

/-- For saturation 0.5 and value 0.95, each HSV-to-RGB channel lies in
`[0.475, 0.95]` for every hue in `[0, 1)`. -/
theorem hsv_comp_bounds (hue : ℚ) (h0 : 0 ≤ hue) (h1 : hue < 1) :
    (19/40 ≤ (hsv_to_rgb hue (1/2) (19/20)).1 ∧
      (hsv_to_rgb hue (1/2) (19/20)).1 ≤ 19/20) ∧
    (19/40 ≤ (hsv_to_rgb hue (1/2) (19/20)).2.1 ∧
      (hsv_to_rgb hue (1/2) (19/20)).2.1 ≤ 19/20) ∧
    (19/40 ≤ (hsv_to_rgb hue (1/2) (19/20)).2.2 ∧
      (hsv_to_rgb hue (1/2) (19/20)).2.2 ≤ 19/20) := by
  have hs : ¬((1:ℚ)/2 = 0) := by norm_num
  have hm0 : (0:ℚ) ≤ hue * 6 := by linarith
  have hpy : pyInt (hue * 6) = ⌊hue * 6⌋ := if_pos hm0
  have hf0 : (0:ℚ) ≤ hue * 6 - (⌊hue * 6⌋ : ℚ) := by
    have := Int.fract_nonneg (hue * 6)
    rwa [Int.fract] at this
  have hf1 : hue * 6 - (⌊hue * 6⌋ : ℚ) < 1 := by
    have := Int.fract_lt_one (hue * 6)
    rwa [Int.fract] at this
  have hi0 : (0:ℤ) ≤ ⌊hue * 6⌋ := Int.floor_nonneg.mpr hm0
  have hi6 : ⌊hue * 6⌋ < 6 := Int.floor_lt.mpr (by push_cast; linarith)
  have him : ⌊hue * 6⌋ % 6 = ⌊hue * 6⌋ := Int.emod_eq_of_lt hi0 hi6
  unfold hsv_to_rgb
  rw [if_neg hs]
  dsimp only
  rw [hpy, him]
  split_ifs <;>
    refine ⟨⟨?_, ?_⟩, ⟨?_, ?_⟩, ⟨?_, ?_⟩⟩ <;> nlinarith [hf0, hf1]

/-- Truncating `int(channel * 256)` of a channel in `[0.475, 0.95]` lies in `0..255`. -/
theorem pyInt_channel_bounds (c : ℚ) (hc0 : 19/40 ≤ c) (hc1 : c ≤ 19/20) :
    0 ≤ pyInt (c * 256) ∧ pyInt (c * 256) ≤ 255 := by
  have hpos : (0:ℚ) ≤ c * 256 := by nlinarith
  rw [pyInt, if_pos hpos]
  refine ⟨Int.floor_nonneg.mpr hpos, ?_⟩
  have h2 : ⌊c * 256⌋ < 256 := Int.floor_lt.mpr (by push_cast; nlinarith)
  omega

set_option maxRecDepth 4000 in
/-- Formatting with width-2 uppercase hex of every value in `0..255` gives two uppercase hex digits. -/
theorem format02X_all : ∀ n : Fin 256,
    (format02X (n.val : Int)).length = 2 ∧
      ((format02X (n.val : Int)).toList.all
        (fun c => c ∈ "0123456789ABCDEF".toList)) := by decide

/-- Formatting with width-2 uppercase hex of an integer in `0..255` gives two uppercase hex digits. -/
theorem format02X_hex (i : Int) (h0 : 0 ≤ i) (h1 : i ≤ 255) :
    (format02X i).length = 2 ∧
      ∀ c ∈ (format02X i).toList, c ∈ "0123456789ABCDEF".toList := by
  have hn : i.toNat < 256 := by omega
  have key := format02X_all ⟨i.toNat, hn⟩
  have heq : ((i.toNat : Nat) : Int) = i := Int.toNat_of_nonneg h0
  rw [show ((⟨i.toNat, hn⟩ : Fin 256) : Nat) = i.toNat from rfl, heq] at key
  exact ⟨key.1, by simpa using List.all_eq_true.mp key.2⟩

/-- C3: for every wrapped hue in `[0, 1)` — i.e. for every state of the
random source — `random_color` returns exactly 6 characters, each an
uppercase hexadecimal digit, and each of the three `int(channel * 256)`
channel values (HSV with saturation 0.5 and value 0.95) lies in `0..255`. -/
theorem random_color_hex (hue : ℚ) (h0 : 0 ≤ hue) (h1 : hue < 1) :
    (random_color hue).length = 6 ∧
    (∀ c ∈ (random_color hue).toList, c ∈ "0123456789ABCDEF".toList) ∧
    (0 ≤ pyInt ((hsv_to_rgb hue (1/2) (19/20)).1 * 256) ∧
      pyInt ((hsv_to_rgb hue (1/2) (19/20)).1 * 256) ≤ 255) ∧
    (0 ≤ pyInt ((hsv_to_rgb hue (1/2) (19/20)).2.1 * 256) ∧
      pyInt ((hsv_to_rgb hue (1/2) (19/20)).2.1 * 256) ≤ 255) ∧
    (0 ≤ pyInt ((hsv_to_rgb hue (1/2) (19/20)).2.2 * 256) ∧
      pyInt ((hsv_to_rgb hue (1/2) (19/20)).2.2 * 256) ≤ 255) := by
  obtain ⟨hb1, hb2, hb3⟩ := hsv_comp_bounds hue h0 h1
  have hc1 := pyInt_channel_bounds _ hb1.1 hb1.2
  have hc2 := pyInt_channel_bounds _ hb2.1 hb2.2
  have hc3 := pyInt_channel_bounds _ hb3.1 hb3.2
  have hf1 := format02X_hex _ hc1.1 hc1.2
  have hf2 := format02X_hex _ hc2.1 hc2.2
  have hf3 := format02X_hex _ hc3.1 hc3.2
  have hsplit : (random_color hue).toList =
      (format02X (pyInt ((hsv_to_rgb hue (1/2) (19/20)).1 * 256))).toList ++
      (format02X (pyInt ((hsv_to_rgb hue (1/2) (19/20)).2.1 * 256))).toList ++
      (format02X (pyInt ((hsv_to_rgb hue (1/2) (19/20)).2.2 * 256))).toList := by
    unfold random_color
    dsimp only
    simp only [String.toList, String.data_append]
  refine ⟨?_, ?_, hc1, hc2, hc3⟩
  · unfold random_color
    dsimp only
    rw [String.length_append, String.length_append, hf1.1, hf2.1, hf3.1]
  · intro c hc
    rw [hsplit] at hc
    rcases List.mem_append.mp hc with hc' | hc3'
    · rcases List.mem_append.mp hc' with hc1' | hc2'
      · exact hf1.2 c hc1'
      · exact hf2.2 c hc2'
    · exact hf3.2 c hc3'

/-- Witness for C3 at the concrete wrapped hue 0. -/
theorem random_color_hex_witness :
    ((0:ℚ) ≤ 0 ∧ (0:ℚ) < 1) ∧
    (random_color 0).length = 6 ∧
    (∀ c ∈ (random_color 0).toList, c ∈ "0123456789ABCDEF".toList) :=
  ⟨⟨by decide, by decide⟩,
   (random_color_hex 0 (by decide) (by decide)).1,
   (random_color_hex 0 (by decide) (by decide)).2.1⟩
